import Mathlib

/-!
Verification of the ITK test-driver harness (`itkTestDriverInclude.h`).

The header under `Modules/Core/TestKernel/include` only declares the harness
functions (`RegressionTestImage`, `RegressionTestBaselines`, `HashTestImage`,
`ProcessArguments`); their bodies live outside the given sources.  The data
types (`RegressionTestParameters`, `ProcessedOutputType`,
`RedirectOutputParameters`, the default arguments of `RegressionTestImage`)
are embedded from the header; the missing function bodies are modelled from
the specification, as marked on each definition.
-/

namespace ITKTestDriver

/-- A decoded in-memory image: a two-dimensional grid of rational
intensities.  `pix x y` is the intensity at column `x`, row `y`; positions
outside `w × h` are never inspected by the comparator. -/
structure Image where
  w : Nat
  h : Nat
  pix : Nat → Nat → ℚ

/-- All pixel positions of a `w × h` grid, column-major. -/
def positions (w h : Nat) : List (Nat × Nat) :=
  (List.range w).flatMap (fun x => (List.range h).map (fun y => (x, y)))

theorem mem_positions (w h : Nat) (p : Nat × Nat) :
    p ∈ positions w h ↔ p.1 < w ∧ p.2 < h := by
  cases p with
  | mk x y =>
    simp only [positions, List.mem_flatMap, List.mem_map, List.mem_range]
    constructor
    · rintro ⟨a, ha, b, hb, heq⟩
      cases heq
      exact ⟨ha, hb⟩
    · rintro ⟨hx, hy⟩
      exact ⟨x, hx, y, hy, rfl⟩

/-- Modelled from the spec: the neighborhood search of the missing
`RegressionTestImage` body.  Given the test intensity `v` at a position
`(x, y)`, scan the baseline for a pixel within Chebyshev (box) distance
`r` of `(x, y)` whose intensity differs from `v` by at most `t`. -/
def neighborMatch (base : Image) (v t : ℚ) (r x y : Nat) : Bool :=
  (List.range base.w).any fun a =>
    (List.range base.h).any fun b =>
      decide (Nat.dist x a ≤ r ∧ Nat.dist y b ≤ r ∧ |v - base.pix a b| ≤ t)

/-- Modelled from the spec: the per-pixel decision of the missing
`RegressionTestImage` body.  A pixel differs when its absolute intensity
difference against the baseline pixel at the same position exceeds
`t` and, when `r > 0`, no baseline pixel in the Chebyshev neighborhood
of radius `r` is within `t` either. -/
def pixelDiffers (test base : Image) (t : ℚ) (r : Nat) (x y : Nat) : Bool :=
  if |test.pix x y - base.pix x y| ≤ t then false
  else if 0 < r then ! neighborMatch base (test.pix x y) t r x y
  else true

/-- Modelled from the spec: the difference count returned by the missing
`RegressionTestImage` body — the number of pixel positions of the test
image that count as differing. -/
def regressionTestImage (test base : Image) (t : ℚ) (r : Nat) : Nat :=
  (positions test.w test.h).countP (fun p => pixelDiffers test base t r p.1 p.2)

/-- The matching condition exactly as the claim words it: the pixel matches
at its own position within `t`, or `r > 0` and some baseline pixel within
Chebyshev distance `r` matches within `t`. -/
def pixelMatchesClaim (test base : Image) (t : ℚ) (r : Nat) (x y : Nat) : Prop :=
  |test.pix x y - base.pix x y| ≤ t ∨
    (0 < r ∧ ∃ a, a < base.w ∧ ∃ b, b < base.h ∧
      (Nat.dist x a ≤ r ∧ Nat.dist y b ≤ r ∧ |test.pix x y - base.pix a b| ≤ t))

instance (test base : Image) (t : ℚ) (r x y : Nat) :
    Decidable (pixelMatchesClaim test base t r x y) := by
  unfold pixelMatchesClaim
  infer_instance

theorem neighborMatch_iff (base : Image) (v t : ℚ) (r x y : Nat) :
    neighborMatch base v t r x y = true ↔
      ∃ a, a < base.w ∧ ∃ b, b < base.h ∧
        (Nat.dist x a ≤ r ∧ Nat.dist y b ≤ r ∧ |v - base.pix a b| ≤ t) := by
  simp only [neighborMatch, List.any_eq_true, List.mem_range, decide_eq_true_eq]

theorem pixelDiffers_iff (test base : Image) (t : ℚ) (r : Nat) (x y : Nat) :
    pixelDiffers test base t r x y = true ↔
      ¬ pixelMatchesClaim test base t r x y := by
  unfold pixelDiffers pixelMatchesClaim
  by_cases hsame : |test.pix x y - base.pix x y| ≤ t
  · simp [hsame]
  · by_cases hr : 0 < r
    · constructor
      · intro hd hc
        rcases hc with hc | ⟨-, a, ha, b, hb, hcc⟩
        · exact hsame hc
        · have hm : neighborMatch base (test.pix x y) t r x y = true :=
            (neighborMatch_iff base (test.pix x y) t r x y).mpr ⟨a, ha, b, hb, hcc⟩
          rw [if_neg hsame, if_pos hr, hm] at hd
          simp at hd
      · intro hc
        rw [if_neg hsame, if_pos hr]
        cases hn : neighborMatch base (test.pix x y) t r x y
        · rfl
        · exact absurd (Or.inr ⟨hr, (neighborMatch_iff base (test.pix x y) t r x y).mp hn⟩) hc
    · simp [hsame, hr]

/-- Claim C1: for every pixel position in the test image, the pixel counts
as matching iff the absolute intensity difference at the same position is
within `intensityTolerance`, or `radiusTolerance > 0` and some baseline
pixel in the Chebyshev neighborhood of radius up to `radiusTolerance` is
within `intensityTolerance`; `differenceCount` is the number of pixel
positions that match neither way. -/
theorem regressionTestImage_counts_claim_mismatches
    (test base : Image) (t : ℚ) (r : Nat) :
    regressionTestImage test base t r =
      ((positions test.w test.h).filter
        (fun p => decide (¬ pixelMatchesClaim test base t r p.1 p.2))).length := by
  unfold regressionTestImage
  rw [List.countP_eq_length_filter]
  congr 1
  apply List.filter_congr
  intro p hp
  rw [Bool.eq_iff_iff, pixelDiffers_iff, decide_eq_true_eq]

/-- A one-pixel image of intensity `0`, used as a concrete input. -/
def onePixelImage : Image := ⟨1, 1, fun _ _ => 0⟩

/-- Counterexample to claim C4 as stated: with a negative intensity
tolerance, an image compared against itself does not yield difference
count `0` — the claim quantifies over every `intensityTolerance t`, but
`|p - p| = 0 ≤ t` fails when `t < 0`. -/
theorem regressionTestImage_self_neg_tol_counterexample :
    regressionTestImage onePixelImage onePixelImage (-1) 0 = 1 ∧
      ¬ regressionTestImage onePixelImage onePixelImage (-1) 0 = 0 := by
  have hpd : pixelDiffers onePixelImage onePixelImage (-1) 0 0 0 = true := by
    unfold pixelDiffers
    have hlt : ¬ |onePixelImage.pix 0 0 - onePixelImage.pix 0 0| ≤ (-1 : ℚ) := by
      norm_num [onePixelImage]
    rw [if_neg hlt, if_neg (lt_irrefl 0)]
  have hpos : positions onePixelImage.w onePixelImage.h = [(0, 0)] := by decide
  have hcount : regressionTestImage onePixelImage onePixelImage (-1) 0 = 1 := by
    unfold regressionTestImage
    rw [hpos, List.countP_cons, List.countP_nil]
    simp [hpd]
  exact ⟨hcount, by rw [hcount]; omega⟩

/-- Claim C4 (amended): for every image, every intensity tolerance
`t ≥ 0` and every radius tolerance `r`, comparing an image against
itself yields difference count `0`. -/
theorem regressionTestImage_self_eq_zero
    (img : Image) (t : ℚ) (r : Nat) (ht : 0 ≤ t) :
    regressionTestImage img img t r = 0 := by
  unfold regressionTestImage
  rw [List.countP_eq_zero]
  intro p hp
  simp only [pixelDiffers, sub_self, abs_zero, if_pos ht]
  simp

theorem regressionTestImage_self_eq_zero_witness :
    regressionTestImage onePixelImage onePixelImage 0 0 = 0 :=
  regressionTestImage_self_eq_zero onePixelImage 0 0 (le_refl 0)

theorem neighborMatch_mono (base : Image) (v t : ℚ) (x y : Nat)
    {r1 r2 : Nat} (h : r1 ≤ r2) :
    neighborMatch base v t r1 x y = true → neighborMatch base v t r2 x y = true := by
  rw [neighborMatch_iff, neighborMatch_iff]
  rintro ⟨a, ha, b, hb, d1, d2, hq⟩
  exact ⟨a, ha, b, hb, le_trans d1 h, le_trans d2 h, hq⟩

theorem pixelDiffers_antitone (test base : Image) (t : ℚ) (x y : Nat)
    {r1 r2 : Nat} (h : r1 ≤ r2) :
    pixelDiffers test base t r2 x y = true → pixelDiffers test base t r1 x y = true := by
  rw [pixelDiffers_iff, pixelDiffers_iff]
  intro h2 hc1
  apply h2
  rcases hc1 with hc | ⟨hr1, a, ha, b, hb, d1, d2, hq⟩
  · exact Or.inl hc
  · exact Or.inr ⟨lt_of_lt_of_le hr1 h, a, ha, b, hb,
      le_trans d1 h, le_trans d2 h, hq⟩

/-- Claim C5: for fixed images and intensity tolerance, the difference
count is monotonically non-increasing in the radius tolerance. -/
theorem regressionTestImage_antitone_in_radius
    (test base : Image) (t : ℚ) (r1 r2 : Nat) (h : r1 ≤ r2) :
    regressionTestImage test base t r2 ≤ regressionTestImage test base t r1 := by
  unfold regressionTestImage
  apply List.countP_mono_left
  intro p hp hd
  exact pixelDiffers_antitone test base t p.1 p.2 h hd

/-- A two-pixel test image whose bright pixel sits one index away from the
baseline's, exercising the radius-tolerant search. -/
def shiftedTestImage : Image := ⟨2, 1, fun x _ => if x = 0 then 5 else 0⟩

/-- The baseline for `shiftedTestImage`, bright pixel at the other index. -/
def shiftedBaseImage : Image := ⟨2, 1, fun x _ => if x = 1 then 5 else 0⟩

theorem regressionTestImage_antitone_in_radius_witness :
    regressionTestImage shiftedTestImage shiftedBaseImage 0 1 ≤
      regressionTestImage shiftedTestImage shiftedBaseImage 0 0 :=
  regressionTestImage_antitone_in_radius shiftedTestImage shiftedBaseImage 0 0 1
    (by decide)

/-- The numbered baseline candidate `stem + "." + i + suffix`, as described
by the header comment on `RegressionTestBaselines`. -/
def baselineCandidate (stem suffix : String) (i : Nat) : String :=
  stem ++ "." ++ toString i ++ suffix

/-- Modelled from the spec: the enumeration loop of the missing
`RegressionTestBaselines` body.  Starting at index `i`, collect the
numbered candidates while they exist on disk, stopping at the first
missing one.  `fileExists` stands for the filesystem probe; `fuel`
bounds the loop (the real loop stops at the first missing file). -/
def collectNumbered (fileExists : String → Bool) (stem suffix : String) :
    Nat → Nat → List String
  | 0, _ => []
  | fuel + 1, i =>
    if fileExists (baselineCandidate stem suffix i) then
      baselineCandidate stem suffix i ::
        collectNumbered fileExists stem suffix fuel (i + 1)
    else []

/-- Modelled from the spec: the missing `RegressionTestBaselines` body.
Candidate 0 is the nominal path `stem ++ suffix` itself, unconditionally;
the numbered candidates follow while each exists. -/
def regressionTestBaselines (fileExists : String → Bool)
    (stem suffix : String) (fuel : Nat) : List String :=
  (stem ++ suffix) :: collectNumbered fileExists stem suffix fuel 1

theorem collectNumbered_spec (fe : String → Bool) (stem suffix : String) :
    ∀ (k fuel i : Nat), k < fuel →
      (∀ j, i ≤ j → j < i + k → fe (baselineCandidate stem suffix j) = true) →
      fe (baselineCandidate stem suffix (i + k)) = false →
      collectNumbered fe stem suffix fuel i =
        (List.range k).map (fun j => baselineCandidate stem suffix (i + j)) := by
  intro k
  induction k with
  | zero =>
    intro fuel i hlt hall hmiss
    match fuel, hlt with
    | fuel + 1, _ =>
      unfold collectNumbered
      rw [if_neg]
      · simp
      · simpa using hmiss
  | succ k ih =>
    intro fuel i hlt hall hmiss
    match fuel, hlt with
    | fuel + 1, hlt =>
      unfold collectNumbered
      rw [if_pos (hall i (le_refl i) (by omega))]
      rw [ih fuel (i + 1) (by omega)
        (fun j h1 h2 => hall j (by omega) (by omega))
        (by rw [show i + 1 + k = i + (k + 1) by omega]; exact hmiss)]
      rw [List.range_succ_eq_map, List.map_cons, List.map_map]
      congr 1
      apply List.map_congr_left
      intro a ha
      simp only [Function.comp_apply]
      congr 1
      omega

/-- Claim C3: the resolved baseline set always starts with the nominal
path (index 0), with no hypothesis about its existence on disk, followed
by the numbered candidates `stem + "." + i + suffix` for consecutive
`i = 1..N` when exactly those exist contiguously and `N + 1` is missing. -/
theorem regressionTestBaselines_spec (fe : String → Bool) (stem suffix : String)
    (N fuel : Nat) (hfuel : N < fuel)
    (hex : ∀ i, 1 ≤ i → i ≤ N → fe (baselineCandidate stem suffix i) = true)
    (hmiss : fe (baselineCandidate stem suffix (N + 1)) = false) :
    regressionTestBaselines fe stem suffix fuel =
      (stem ++ suffix) ::
        (List.range N).map (fun j => baselineCandidate stem suffix (1 + j)) := by
  unfold regressionTestBaselines
  congr 1
  exact collectNumbered_spec fe stem suffix N fuel 1 hfuel
    (fun j h1 h2 => hex j h1 (by omega))
    (by rw [Nat.add_comm]; exact hmiss)

/-- A concrete filesystem with exactly two numbered baseline variants and
no nominal file. -/
def demoFileExists : String → Bool :=
  fun s => s == "b.1.png" || s == "b.2.png"

theorem regressionTestBaselines_spec_witness :
    regressionTestBaselines demoFileExists "b" ".png" 3 =
      ["b.png", "b.1.png", "b.2.png"] := by
  have h := regressionTestBaselines_spec demoFileExists "b" ".png" 2 3 (by omega)
    (by intro i h1 h2; interval_cases i <;> decide) (by decide)
  rw [h]
  decide

/-- Modelled from the spec: the missing driver loop over resolved
baselines.  `counts` are the difference counts of the baselines in
resolution order.  The loop stops at the first baseline whose count is
within `tol`, returning its index (`Sum.inl`); when none passes it
returns the lowest difference count seen (`Sum.inr (some _)`), or
`Sum.inr none` for an empty baseline set. -/
def evalBaselines (tol : Nat) : List Nat → Nat ⊕ Option Nat
  | [] => Sum.inr none
  | c :: rest =>
    if c ≤ tol then Sum.inl 0
    else
      match evalBaselines tol rest with
      | Sum.inl i => Sum.inl (i + 1)
      | Sum.inr none => Sum.inr (some c)
      | Sum.inr (some m) => Sum.inr (some (min c m))

theorem evalBaselines_inr_none (tol : Nat) :
    ∀ counts : List Nat, evalBaselines tol counts = Sum.inr none → counts = [] := by
  intro counts
  cases counts with
  | nil => intro _; rfl
  | cons c rest =>
    intro h
    by_cases hc : c ≤ tol
    · simp [evalBaselines, hc] at h
    · rcases hrest : evalBaselines tol rest with i | o
      · simp [evalBaselines, hc, hrest] at h
      · cases o <;> simp [evalBaselines, hc, hrest] at h

/-- Claim C2: the harness passes iff some baseline's difference count is
within `numberOfPixelsTolerance`; on a pass the reported index is the
first passing baseline in resolution order, and when none pass the
reported count is the lowest difference count among all baselines. -/
theorem evalBaselines_spec (tol : Nat) (counts : List Nat) :
    ((evalBaselines tol counts).isLeft = true ↔ ∃ c ∈ counts, c ≤ tol) ∧
    (∀ i, evalBaselines tol counts = Sum.inl i →
      List.findIdx (fun c => decide (c ≤ tol)) counts = i) ∧
    (∀ m, evalBaselines tol counts = Sum.inr (some m) →
      m ∈ counts ∧ ∀ c ∈ counts, m ≤ c) := by
  induction counts with
  | nil =>
    refine ⟨by simp [evalBaselines], ?_, ?_⟩
    · intro i h
      simp [evalBaselines] at h
    · intro m h
      simp [evalBaselines] at h
  | cons c rest ih =>
    obtain ⟨ih1, ih2, ih3⟩ := ih
    by_cases hc : c ≤ tol
    · refine ⟨?_, ?_, ?_⟩
      · simp only [evalBaselines, if_pos hc, Sum.isLeft_inl, true_iff]
        exact ⟨c, by simp, hc⟩
      · intro i h
        simp only [evalBaselines, if_pos hc, Sum.inl.injEq] at h
        rw [List.findIdx_cons]
        simp [hc, h]
      · intro m h
        simp [evalBaselines, hc] at h
    · rcases hrest : evalBaselines tol rest with i | o
      · refine ⟨?_, ?_, ?_⟩
        · simp only [evalBaselines, if_neg hc, hrest]
          constructor
          · intro _
            obtain ⟨c', hc', hle⟩ := ih1.mp (by rw [hrest]; rfl)
            exact ⟨c', by simp [hc'], hle⟩
          · intro _; rfl
        · intro i' h
          simp only [evalBaselines, if_neg hc, hrest, Sum.inl.injEq] at h
          rw [List.findIdx_cons]
          simp only [hc, decide_eq_true_eq, if_neg]
          rw [ih2 i hrest]
          simp [hc, h]
        · intro m h
          simp [evalBaselines, hc, hrest] at h
      · cases o with
        | none =>
          have hrest0 : rest = [] := evalBaselines_inr_none tol rest hrest
          subst hrest0
          refine ⟨?_, ?_, ?_⟩
          · simp [evalBaselines, hc]
          · intro i h
            simp [evalBaselines, hc] at h
          · intro m h
            simp only [evalBaselines, if_neg hc, hrest] at h
            simp only [evalBaselines, Sum.inr.injEq, Option.some.injEq] at h
            subst h
            exact ⟨by simp, by intro c' hc'; simp at hc'; omega⟩
        | some m' =>
          obtain ⟨hmem, hmin⟩ := ih3 m' hrest
          refine ⟨?_, ?_, ?_⟩
          · simp only [evalBaselines, if_neg hc, hrest]
            constructor
            · intro h
              simp at h
            · rintro ⟨c', hc', hle⟩
              rcases List.mem_cons.mp hc' with rfl | hmem'
              · exact absurd hle hc
              · have := ih1.mpr ⟨c', hmem', hle⟩
                rw [hrest] at this
                simp at this
          · intro i h
            simp [evalBaselines, hc, hrest] at h
          · intro m h
            simp only [evalBaselines, if_neg hc, hrest, Sum.inr.injEq,
              Option.some.injEq] at h
            subst h
            constructor
            · rcases min_choice c m' with hmc | hmc <;> rw [hmc]
              · simp
              · exact List.mem_cons_of_mem c hmem
            · intro c' hc'
              rcases List.mem_cons.mp hc' with rfl | hmem'
              · exact min_le_left _ _
              · exact le_trans (min_le_right _ _) (hmin c' hmem')

theorem evalBaselines_spec_witness :
    List.findIdx (fun c => decide (c ≤ 1)) [5, 1, 3] = 1 :=
  (evalBaselines_spec 1 [5, 1, 3]).2.1 1 (by decide)

/-- Modelled from the spec: the missing `HashTestImage` body.  The content
hash over the decoded pixel buffer is computed by the external hash
collaborator `hashFn`; the test matches when the computed hash equals some
entry of the accepted list. -/
def hashTestImage (hashFn : Image → String) (img : Image)
    (acceptedHashes : List String) : Bool :=
  acceptedHashes.any (fun s => s == hashFn img)

/-- Claim C6: `HashTestImage` reports a match iff the hash computed over
the decoded pixel buffer equals some entry of the accepted-hash list. -/
theorem hashTestImage_match_iff (hashFn : Image → String) (img : Image)
    (acceptedHashes : List String) :
    hashTestImage hashFn img acceptedHashes = true ↔
      hashFn img ∈ acceptedHashes := by
  simp only [hashTestImage, List.any_eq_true, beq_iff_eq]
  constructor
  · rintro ⟨s, hs, rfl⟩
    exact hs
  · intro h
    exact ⟨hashFn img, h, rfl⟩

/-- The call signature of `RegressionTestImage` embedded from the header:
the four required arguments followed by the declared C++ default
arguments. -/
structure RegressionTestImageCall where
  testImageFilename : String
  baselineImageFilename : String
  reportErrors : Int
  intensityTolerance : ℚ
  numberOfPixelsTolerance : Nat := 0
  radiusTolerance : Nat := 0
  verifyInputInformation : Bool := true
  coordinateTolerance : ℚ := 1 / 1000000
  directionTolerance : ℚ := 1 / 1000000

/-- A call to `RegressionTestImage` supplying only the test path, the
baseline path, the report flag and the intensity tolerance, leaving every
other argument to its declared default. -/
def defaultCall (t b : String) (re : Int) (it : ℚ) : RegressionTestImageCall :=
  { testImageFilename := t, baselineImageFilename := b,
    reportErrors := re, intensityTolerance := it }

/-- Claim C10: a call supplying only the four required arguments gets
`numberOfPixelsTolerance = 0`, `radiusTolerance = 0`,
`verifyInputInformation = true` and coordinate/direction tolerances of
`1.0e-6`. -/
theorem regressionTestImageCall_defaults (t b : String) (re : Int) (it : ℚ) :
    (defaultCall t b re it).numberOfPixelsTolerance = 0 ∧
    (defaultCall t b re it).radiusTolerance = 0 ∧
    (defaultCall t b re it).verifyInputInformation = true ∧
    (defaultCall t b re it).coordinateTolerance = 1 / 1000000 ∧
    (defaultCall t b re it).directionTolerance = 1 / 1000000 :=
  ⟨rfl, rfl, rfl, rfl, rfl⟩

/-- The outcome of one compare pair: the images could not be loaded, or
both loaded and the comparison produced a difference count. -/
inductive PairOutcome where
  | loadError : PairOutcome
  | evaluated : Nat → PairOutcome
deriving DecidableEq

/-- Modelled from the spec: evaluation of a single compare pair by the
missing driver body.  `load` is the external image-decode collaborator;
either image failing to load yields a load error for this pair. -/
def evalPair (load : String → Option Image) (t : ℚ) (r : Nat)
    (p : String × String) : PairOutcome :=
  match load p.1, load p.2 with
  | some test, some base => PairOutcome.evaluated (regressionTestImage test base t r)
  | _, _ => PairOutcome.loadError

/-- Whether a pair outcome counts as a failure under the pixel-count
tolerance: a load error always fails, an evaluated pair fails when its
difference count exceeds the tolerance. -/
def pairFailed (tol : Nat) : PairOutcome → Bool
  | PairOutcome.loadError => true
  | PairOutcome.evaluated d => decide (tol < d)

/-- Modelled from the spec: the missing driver loop over all configured
compare pairs.  Every pair is evaluated; a failure — load error included —
is recorded for that pair and processing continues with the rest. -/
def runComparisons (load : String → Option Image) (t : ℚ) (r tol : Nat) :
    List (String × String) → Nat × List PairOutcome
  | [] => (0, [])
  | p :: rest =>
    let o := evalPair load t r p
    let res := runComparisons load t r tol rest
    ((if pairFailed tol o then 1 else 0) + res.1, o :: res.2)

/-- Claim C8: a load error on one pair is recorded as a failure for that
pair only and never aborts the others — the outcome list has exactly one
entry per configured pair, each entry depends only on its own pair, and
the failure count is the number of failing entries. -/
theorem runComparisons_spec (load : String → Option Image) (t : ℚ) (r tol : Nat)
    (pairs : List (String × String)) :
    (runComparisons load t r tol pairs).2 = pairs.map (evalPair load t r) ∧
    (runComparisons load t r tol pairs).1 =
      (pairs.map (evalPair load t r)).countP (pairFailed tol) := by
  induction pairs with
  | nil => exact ⟨rfl, rfl⟩
  | cons p rest ih =>
    obtain ⟨ih1, ih2⟩ := ih
    constructor
    · simp [runComparisons, ih1]
    · simp [runComparisons, ih2, List.countP_cons, Nat.add_comm]

/-- Modelled from the spec: the missing driver main flow.  A nonzero exit
of the supervised child short-circuits the comparisons and is surfaced as
the harness exit code; otherwise the exit code is the number of failed
compare pairs. -/
def harnessExitCode (load : String → Option Image) (t : ℚ) (r tol : Nat)
    (external : Bool) (childExit : Nat) (pairs : List (String × String)) : Nat :=
  if external = true ∧ childExit ≠ 0 then childExit
  else (runComparisons load t r tol pairs).1

/-- Claim C9: the exit code is `0` iff the child (when one was launched)
exited `0` and every configured comparison passed; and when an external
program runs with no comparisons configured, the harness exit code equals
the child's exit code. -/
theorem harnessExitCode_spec (load : String → Option Image) (t : ℚ) (r tol : Nat)
    (external : Bool) (childExit : Nat) (pairs : List (String × String)) :
    (harnessExitCode load t r tol external childExit pairs = 0 ↔
      ((external = true → childExit = 0) ∧
        (runComparisons load t r tol pairs).1 = 0)) ∧
    (external = true → pairs = [] →
      harnessExitCode load t r tol external childExit pairs = childExit) := by
  constructor
  · unfold harnessExitCode
    by_cases hx : external = true ∧ childExit ≠ 0
    · rw [if_pos hx]
      constructor
      · intro h
        exact absurd h hx.2
      · intro h
        exact absurd (h.1 hx.1) hx.2
    · rw [if_neg hx]
      constructor
      · intro h
        refine ⟨?_, h⟩
        intro hext
        by_contra hne
        exact hx ⟨hext, hne⟩
      · intro h
        exact h.2
  · intro hext hpairs
    subst hpairs
    unfold harnessExitCode
    by_cases hc : childExit = 0
    · subst hc
      simp [runComparisons]
    · rw [if_pos ⟨hext, hc⟩]

/-- A loader with no decodable images, used as a concrete input. -/
def noLoad : String → Option Image := fun _ => none

theorem harnessExitCode_spec_witness :
    harnessExitCode noLoad 0 0 0 true 7 [] = 7 :=
  (harnessExitCode_spec noLoad 0 0 0 true 7 []).2 rfl rfl

/-- The regression-test parameter record embedded from the header
(`RegressionTestParameters`). -/
structure RegressionTestParameters where
  compareList : List (String × String)
  intensityTolerance : ℚ
  numberOfPixelsTolerance : Nat
  radiusTolerance : Nat
  verifyInputInformation : Bool
  coordinateTolerance : ℚ
  directionTolerance : ℚ
deriving DecidableEq

/-- The processed-output record embedded from the header
(`ProcessedOutputType`). -/
structure ProcessedOutputType where
  externalProcessMustBeCalled : Bool
  args : List String
  add_before_libpath : List String
  add_before_env : List String
  add_before_env_with_sep : List String
deriving DecidableEq

/-- The redirect-output record embedded from the header
(`RedirectOutputParameters`). -/
structure RedirectOutputParameters where
  redirect : Bool
  fileName : String
deriving DecidableEq

/-- The whole driver state populated during argument processing. -/
structure DriverState where
  params : RegressionTestParameters
  hashTestList : List (String × List String)
  redirectParams : RedirectOutputParameters
  processedOutput : ProcessedOutputType
deriving DecidableEq

/-- Modelled from the spec: the recognized-option vocabulary of the
missing `ProcessArguments` body (the spec treats exact spellings as a
naming convention; these are representative). -/
def recognizedOptions : List String :=
  ["--compare", "--compare-MD5",
   "--compareNumberOfPixelsTolerance", "--compareRadiusTolerance",
   "--compareIntensityTolerance", "--compareCoordinateTolerance",
   "--compareDirectionTolerance", "--ignoreInputInformation",
   "--redirectOutput", "--add-before-libpath",
   "--add-before-env", "--add-before-env-with-sep"]

/-- The number of value tokens each recognized option requires. -/
def optionArity (tok : String) : Nat :=
  if tok = "--compare" ∨ tok = "--compare-MD5" ∨ tok = "--add-before-env-with-sep"
  then 2
  else if tok = "--ignoreInputInformation" then 0
  else 1

/-- Result of argument processing: an updated driver state, or a usage
error (nonzero return after the synopsis). -/
inductive ParseResult where
  | ok : DriverState → ParseResult
  | usageError : ParseResult
deriving DecidableEq

/-- Modelled from the spec: the missing `ProcessArguments` body.  Options
are consumed left-to-right, each mutating the driver state; the first
token that is not a recognized option terminates option parsing — it and
everything after it become the residual argument vector, with
`externalProcessMustBeCalled` set; a recognized option missing a required
value is a usage error.  The numeric conversions (`atof`/`atoi`) are the
external collaborators `parseDouble` and `parseNat`. -/
def processArguments (parseDouble : String → ℚ) (parseNat : String → Nat) :
    List String → DriverState → ParseResult
  | [], s => ParseResult.ok s
  | tok :: rest, s =>
    if tok = "--compare" then
      match rest with
      | t :: b :: rest2 =>
        processArguments parseDouble parseNat rest2
          { s with params :=
              { s.params with compareList := s.params.compareList ++ [(t, b)] } }
      | _ => ParseResult.usageError
    else if tok = "--compare-MD5" then
      match rest with
      | t :: hsh :: rest2 =>
        processArguments parseDouble parseNat rest2
          { s with hashTestList := s.hashTestList ++ [(t, [hsh])] }
      | _ => ParseResult.usageError
    else if tok = "--compareNumberOfPixelsTolerance" then
      match rest with
      | v :: rest2 =>
        processArguments parseDouble parseNat rest2
          { s with params :=
              { s.params with numberOfPixelsTolerance := parseNat v } }
      | _ => ParseResult.usageError
    else if tok = "--compareRadiusTolerance" then
      match rest with
      | v :: rest2 =>
        processArguments parseDouble parseNat rest2
          { s with params := { s.params with radiusTolerance := parseNat v } }
      | _ => ParseResult.usageError
    else if tok = "--compareIntensityTolerance" then
      match rest with
      | v :: rest2 =>
        processArguments parseDouble parseNat rest2
          { s with params :=
              { s.params with intensityTolerance := parseDouble v } }
      | _ => ParseResult.usageError
    else if tok = "--compareCoordinateTolerance" then
      match rest with
      | v :: rest2 =>
        processArguments parseDouble parseNat rest2
          { s with params :=
              { s.params with coordinateTolerance := parseDouble v } }
      | _ => ParseResult.usageError
    else if tok = "--compareDirectionTolerance" then
      match rest with
      | v :: rest2 =>
        processArguments parseDouble parseNat rest2
          { s with params :=
              { s.params with directionTolerance := parseDouble v } }
      | _ => ParseResult.usageError
    else if tok = "--ignoreInputInformation" then
      processArguments parseDouble parseNat rest
        { s with params := { s.params with verifyInputInformation := false } }
    else if tok = "--redirectOutput" then
      match rest with
      | v :: rest2 =>
        processArguments parseDouble parseNat rest2
          { s with redirectParams := { redirect := true, fileName := v } }
      | _ => ParseResult.usageError
    else if tok = "--add-before-libpath" then
      match rest with
      | v :: rest2 =>
        processArguments parseDouble parseNat rest2
          { s with processedOutput :=
              { s.processedOutput with
                add_before_libpath := s.processedOutput.add_before_libpath ++ [v] } }
      | _ => ParseResult.usageError
    else if tok = "--add-before-env" then
      match rest with
      | v :: rest2 =>
        processArguments parseDouble parseNat rest2
          { s with processedOutput :=
              { s.processedOutput with
                add_before_env := s.processedOutput.add_before_env ++ [v] } }
      | _ => ParseResult.usageError
    else if tok = "--add-before-env-with-sep" then
      match rest with
      | v :: w :: rest2 =>
        processArguments parseDouble parseNat rest2
          { s with processedOutput :=
              { s.processedOutput with
                add_before_env_with_sep :=
                  s.processedOutput.add_before_env_with_sep ++ [v, w] } }
      | _ => ParseResult.usageError
    else
      ParseResult.ok
        { s with processedOutput :=
            { s.processedOutput with
              externalProcessMustBeCalled := true, args := tok :: rest } }

/-- Claim C7: options are parsed left-to-right; the first token not
matching a recognized option terminates option parsing, it and every
later token becoming the residual argument vector with
`externalProcessMustBeCalled` set true; a recognized option missing its
required value makes processing return a usage error. -/
theorem processArguments_spec (parseDouble : String → ℚ) (parseNat : String → Nat)
    (s : DriverState) (tok : String) (rest : List String) :
    (tok ∉ recognizedOptions →
      processArguments parseDouble parseNat (tok :: rest) s =
        ParseResult.ok
          { s with processedOutput :=
              { s.processedOutput with
                externalProcessMustBeCalled := true, args := tok :: rest } }) ∧
    (tok ∈ recognizedOptions → rest.length < optionArity tok →
      processArguments parseDouble parseNat (tok :: rest) s =
        ParseResult.usageError) := by
  constructor
  · intro hnot
    simp only [recognizedOptions, List.mem_cons, List.not_mem_nil, or_false] at hnot
    push_neg at hnot
    obtain ⟨h1, h2, h3, h4, h5, h6, h7, h8, h9, h10, h11, h12⟩ := hnot
    unfold processArguments
    rw [if_neg h1, if_neg h2, if_neg h3, if_neg h4, if_neg h5, if_neg h6,
      if_neg h7, if_neg h8, if_neg h9, if_neg h10, if_neg h11, if_neg h12]
  · intro hmem hlen
    fin_cases hmem
    · rcases rest with _ | ⟨a, _ | ⟨b, rest2⟩⟩
      · rfl
      · rfl
      · simp [optionArity] at hlen
        omega
    · rcases rest with _ | ⟨a, _ | ⟨b, rest2⟩⟩
      · rfl
      · rfl
      · simp [optionArity] at hlen
        omega
    · rcases rest with _ | ⟨a, rest2⟩
      · rfl
      · simp [optionArity] at hlen
    · rcases rest with _ | ⟨a, rest2⟩
      · rfl
      · simp [optionArity] at hlen
    · rcases rest with _ | ⟨a, rest2⟩
      · rfl
      · simp [optionArity] at hlen
    · rcases rest with _ | ⟨a, rest2⟩
      · rfl
      · simp [optionArity] at hlen
    · rcases rest with _ | ⟨a, rest2⟩
      · rfl
      · simp [optionArity] at hlen
    · simp [optionArity] at hlen
    · rcases rest with _ | ⟨a, rest2⟩
      · rfl
      · simp [optionArity] at hlen
    · rcases rest with _ | ⟨a, rest2⟩
      · rfl
      · simp [optionArity] at hlen
    · rcases rest with _ | ⟨a, rest2⟩
      · rfl
      · simp [optionArity] at hlen
    · rcases rest with _ | ⟨a, _ | ⟨b, rest2⟩⟩
      · rfl
      · rfl
      · simp [optionArity] at hlen
        omega

/-- The driver state before any argument is processed. -/
def emptyDriverState : DriverState :=
  { params :=
      { compareList := [], intensityTolerance := 2,
        numberOfPixelsTolerance := 0, radiusTolerance := 0,
        verifyInputInformation := true,
        coordinateTolerance := 1 / 1000000,
        directionTolerance := 1 / 1000000 },
    hashTestList := [],
    redirectParams := { redirect := false, fileName := "" },
    processedOutput :=
      { externalProcessMustBeCalled := false, args := [],
        add_before_libpath := [], add_before_env := [],
        add_before_env_with_sep := [] } }

/-- A trivial stand-in for the `atof` collaborator. -/
def zeroParseDouble : String → ℚ := fun _ => 0

/-- A trivial stand-in for the `atoi` collaborator. -/
def zeroParseNat : String → Nat := fun _ => 0

theorem processArguments_spec_witness :
    processArguments zeroParseDouble zeroParseNat ["myTest", "arg1"] emptyDriverState =
      ParseResult.ok
        { emptyDriverState with processedOutput :=
            { emptyDriverState.processedOutput with
              externalProcessMustBeCalled := true,
              args := ["myTest", "arg1"] } } ∧
    processArguments zeroParseDouble zeroParseNat ["--compare"] emptyDriverState =
      ParseResult.usageError :=
  ⟨(processArguments_spec zeroParseDouble zeroParseNat emptyDriverState
      "myTest" ["arg1"]).1 (by decide),
   (processArguments_spec zeroParseDouble zeroParseNat emptyDriverState
      "--compare" []).2 (by decide) (by decide)⟩

end ITKTestDriver
